import Mathlib

/-!
# StringArtist — shallow embedding of the point-management core

This file embeds the core of the StringArtist repository in Lean 4:

* `Placement` and the JSON codec (`src/StringArtist/gui/placements.py`),
* the nail-editor operations `place_nail`, `erase_nail`, `prioritize_nail`
  and the lookup `get_closest_nail` (`src/StringArtist/gui/gui.py`),
* the import/export callbacks (`src/StringArtist/gui/gui.py`),
* the greedy nearest-neighbor path orderer (`src/StringArtist/tools/smart_crop.py`).

Modelling conventions, used throughout:

* Python numbers are modelled exactly: coordinates are `ℤ`, scale factors are
  `ℚ`.  Floating-point rounding of Python `float` arithmetic is not modelled;
  arithmetic is exact.
* The source compares Euclidean distances `sqrt((x2-x1)^2 + (y2-y1)^2)`.
  Since `Real.sqrt` is strictly monotone on nonnegative reals, every
  comparison of distances is equivalent to the comparison of the *squared*
  distances, which are integers here.  The embedded functions therefore
  carry squared distances; the guard `dist > 6` of the source becomes
  `distSq > 36`.
* Python's built-in `round` rounds half to even (banker's rounding); it is
  embedded as `pyround`.
-/

set_option autoImplicit false

/-- Python's `round`: nearest integer, halves go to the even neighbor. -/
def pyround (q : ℚ) : ℤ :=
  let f := ⌊q⌋
  let r := q - f
  if r < 1/2 then f
  else if 1/2 < r then f + 1
  else if f % 2 = 0 then f else f + 1

/-- Rounding an integer value returns that integer. -/
theorem pyround_intCast (n : ℤ) : pyround (n : ℚ) = n := by
  simp [pyround]

/-- One marked nail (`Placement` in `placements.py`).  The field
`cropper_scanned` is the transient flag that `smart_crop.py` attaches to
placement objects during a path-ordering run; it is `false` on freshly
constructed placements. -/
structure Placement where
  x : ℤ
  y : ℤ
  priority : Bool
  cropper_scanned : Bool
  deriving DecidableEq, Repr

/-- The method `Placement.to_scaled`: `(round(x * scale), round(y * scale))`. -/
def Placement.to_scaled (p : Placement) (scale : ℚ) : ℤ × ℤ :=
  (pyround (p.x * scale), pyround (p.y * scale))

/-- The persisted content of a placement, i.e. a `Placement` with the
transient `cropper_scanned` flag ignored. -/
def Placement.triple (p : Placement) : ℤ × ℤ × Bool :=
  (p.x, p.y, p.priority)

/-! ## JSON values and the persistence codec (`placements.py`) -/

/-- A parsed JSON value, the result of Python's `json.loads`.  Python
booleans (`jbool`) are kept separate from integers because `json.loads`
produces `bool` objects for `true`/`false`. -/
inductive JsonVal where
  | jnull
  | jbool (b : Bool)
  | jint (n : ℤ)
  | jnum (q : ℚ)
  | jstr (s : String)
  | jlist (l : List JsonVal)

/-- Python's `isinstance(v, int)`.  Note that Python `bool` is a subclass of
`int`, so booleans pass this check. -/
def JsonVal.is_int : JsonVal → Bool
  | .jint _ => true
  | .jbool _ => true
  | _ => false

/-- The integer value of a JSON value that passed `is_int`
(`True` behaves as `1`, `False` as `0` in Python arithmetic). -/
def JsonVal.to_int : JsonVal → ℤ
  | .jint n => n
  | .jbool b => if b then 1 else 0
  | _ => 0

/-- Python truthiness of a JSON value that passed `is_int`; this is the
observable content of the `priority` attribute, which the source only ever
uses in boolean position. -/
def JsonVal.truthy : JsonVal → Bool
  | .jint n => decide (n ≠ 0)
  | .jbool b => b
  | _ => false

/-- Validation and conversion of one element of the persisted array,
mirroring the per-element checks of `placements_from_json`: the element
must be a list, of length exactly 3, of values passing `isinstance(_, int)`.
The error strings are the `PlacementLoadError` messages of the source. -/
def parse_placement : JsonVal → Except String Placement
  | .jlist [a, b, c] =>
      if a.is_int && b.is_int && c.is_int then
        .ok ⟨a.to_int, b.to_int, c.truthy, false⟩
      else
        .error "Error loading placements, data[i][j] is not an integer!"
  | .jlist _ => .error "Error loading placements, data[i][j] has incorrect length!"
  | _ => .error "Error loading placements, data[i] is not a list!"

/-- The element loop of `placements_from_json`: convert elements in order,
stopping at the first invalid one. -/
def parse_placements_list : List JsonVal → Except String (List Placement)
  | [] => .ok []
  | j :: js =>
    match parse_placement j with
    | .error m => .error m
    | .ok p =>
      match parse_placements_list js with
      | .error m => .error m
      | .ok ps => .ok (p :: ps)

/-- The loader `placements_from_json` (`placements.py`): validates that the value is a
list of well-formed triples and that at least 3 placements result; a raised
`PlacementLoadError` is embedded as `Except.error` carrying its message. -/
def placements_from_json (j : JsonVal) : Except String (List Placement) :=
  match j with
  | .jlist l =>
    match parse_placements_list l with
    | .error m => .error m
    | .ok ps =>
      if ps.length < 3 then
        .error "Error loading placements, not enough points!"
      else
        .ok ps
  | _ => .error "Error loading placements, data is not a list!"

/-- The serializer `placements_to_json` (`placements.py`): each placement becomes
`[*placement.to_scaled(descale_factor), placement.priority]`; the priority
is a Python `bool` and serializes as a JSON boolean. -/
def placements_to_json (ps : List Placement) (descale_factor : ℚ) : JsonVal :=
  .jlist (ps.map fun p =>
    .jlist [.jint (pyround (p.x * descale_factor)),
            .jint (pyround (p.y * descale_factor)),
            .jbool p.priority])

/-- Whether a JSON value is a list of exactly 3 values passing Python's
integer check — the per-element validity condition of the codec. -/
def is_int_triple : JsonVal → Bool
  | .jlist [a, b, c] => a.is_int && b.is_int && c.is_int
  | _ => false

/-- The invalid-import condition of claim C3, read against the code's
validation: the value is not a list, or some element is not a list of
exactly 3 integers, or fewer than 3 entries result. -/
def invalid_import : JsonVal → Bool
  | .jlist l => l.any (fun e => !is_int_triple e) || decide (l.length < 3)
  | _ => true

/-! ## First-minimum selection

`get_closest_nail` sorts a copy of the placement list by distance with
Python's stable `sorted` and takes element 0, recovering its position with
`list.index` (identity-based, so the original position of that object);
`SmartCropper` uses `min(..., key=lambda x: x[0])`, which also returns the
first element attaining the minimal key.  Both are exactly "the element with
the minimal key, at the lowest position on ties", computed here by
`argminFirst`, which returns the position together with the element. -/

/-- First minimal element of a list and its index: ties are won by the
earlier element, as with a stable sort or Python's `min`. -/
def argminFirst {α : Type} (key : α → ℤ) : List α → Option (ℕ × α)
  | [] => none
  | a :: as =>
    match argminFirst key as with
    | none => some (0, a)
    | some (j, b) => if key a ≤ key b then some (0, a) else some (j + 1, b)

theorem argminFirst_nil {α : Type} (key : α → ℤ) : argminFirst key [] = none := rfl

theorem argminFirst_eq_none {α : Type} (key : α → ℤ) {l : List α}
    (h : argminFirst key l = none) : l = [] := by
  cases l with
  | nil => rfl
  | cons a as =>
    simp only [argminFirst] at h
    rcases hm : argminFirst key as with _ | ⟨j, b⟩ <;> rw [hm] at h
    · simp at h
    · by_cases hk : key a ≤ key b <;> simp [hk] at h

/-- Specification of `argminFirst`: it returns an element of the list at its
position, with minimal key, and the lowest position among exact key ties. -/
theorem argminFirst_spec {α : Type} (key : α → ℤ) :
    ∀ (l : List α) (i : ℕ) (a : α), argminFirst key l = some (i, a) →
      l.get? i = some a ∧
      ∀ (j : ℕ) (b : α), l.get? j = some b →
        key a ≤ key b ∧ (key b = key a → i ≤ j) := by
  intro l
  induction l with
  | nil => intro i a h; simp [argminFirst] at h
  | cons x xs ih =>
    intro i a h
    simp only [argminFirst] at h
    rcases hm : argminFirst key xs with _ | ⟨j, b⟩ <;> rw [hm] at h
    · -- tail empty
      have hxs : xs = [] := argminFirst_eq_none key hm
      subst hxs
      rw [Option.some.injEq, Prod.mk.injEq] at h
      obtain ⟨hi, ha⟩ := h
      subst hi; subst ha
      refine ⟨rfl, ?_⟩
      intro j b hj
      cases j with
      | zero => simp_all
      | succ k => simp at hj
    · have ihspec := ih j b hm
      by_cases hk : key x ≤ key b
      · simp only [if_pos hk] at h
        rw [Option.some.injEq, Prod.mk.injEq] at h
        obtain ⟨hi, ha⟩ := h
        subst hi; subst ha
        refine ⟨rfl, ?_⟩
        intro j' b' hj'
        cases j' with
        | zero =>
          simp only [List.get?] at hj'
          cases hj'
          exact ⟨le_refl _, fun _ => le_refl 0⟩
        | succ k =>
          simp only [List.get?] at hj'
          have := (ihspec.2 k b' hj').1
          exact ⟨le_trans hk this, fun _ => Nat.zero_le _⟩
      · simp only [if_neg hk] at h
        rw [Option.some.injEq, Prod.mk.injEq] at h
        obtain ⟨hi, ha⟩ := h
        subst hi; subst ha
        push_neg at hk
        refine ⟨?_, ?_⟩
        · simpa using ihspec.1
        · intro j' b' hj'
          cases j' with
          | zero =>
            simp only [List.get?] at hj'
            cases hj'
            refine ⟨le_of_lt hk, ?_⟩
            intro heq
            exact absurd heq.symm (ne_of_lt hk)
          | succ k =>
            simp only [List.get?] at hj'
            have hmin := ihspec.2 k b' hj'
            exact ⟨hmin.1, fun heq => Nat.succ_le_succ (hmin.2 heq)⟩

/-! ## Nail editor (`gui.py`) -/

/-- The editor state touched by the nail operations: the placement list and
the separately tracked priority index (`GUI.placements`, `GUI.priority_nail`,
initialized to `[]` and `0`). -/
structure EditorState where
  placements : List Placement
  priority_nail : ℕ
  deriving DecidableEq, Repr

/-- The initial state of a `GUI` object: empty store, priority index 0. -/
def EditorState.initial : EditorState := ⟨[], 0⟩

/-- The assignment `placements[i].priority = b` — in-place flag assignment on element `i`;
out-of-range indices leave the list unchanged. -/
def set_priority : List Placement → ℕ → Bool → List Placement
  | [], _, _ => []
  | p :: ps, 0, b => { p with priority := b } :: ps
  | p :: ps, n + 1, b => p :: set_priority ps n b

/-- The squared canvas-space distance from the query `(x, y)` to a
placement, whose coordinates are rescaled by `1 / im_scale`
(`distance_to_nail` inside `get_closest_nail`; the source takes the square
root, which preserves all comparisons). -/
def distance_to_nail (im_scale : ℚ) (x y : ℤ) (p : Placement) : ℤ :=
  let s := p.to_scaled (1 / im_scale)
  (s.1 - x) ^ 2 + (s.2 - y) ^ 2

/-- The lookup `GUI.get_closest_nail`: index and (squared) distance of the closest
placement; `(-1, -1)` sentinel on an empty store.  The source stably sorts a
copy by distance, takes element 0, and recovers its position with
`list.index` (identity-based); that is exactly the first minimal element at
the lowest index, `argminFirst`. -/
def get_closest_nail (im_scale : ℚ) (ps : List Placement) (x y : ℤ) : ℤ × ℤ :=
  match argminFirst (distance_to_nail im_scale x y) ps with
  | some (i, p) => ((i : ℤ), distance_to_nail im_scale x y p)
  | none => (-1, -1)

/-- The operation `GUI.place_nail`: appends a placement at image-space coordinates
`round(x * im_scale), round(y * im_scale)` (the canvas always exists in a
running session, so `draw_nail` succeeds and the append happens). -/
def place_nail (im_scale : ℚ) (s : EditorState) (x y : ℤ) (priority : Bool) :
    EditorState :=
  { s with placements :=
      s.placements ++ [⟨pyround (x * im_scale), pyround (y * im_scale), priority, false⟩] }

/-- A click of the Nail tool (`workspace_click_callback`): places a nail with
`priority = (len(placements) == 0)`. -/
def place_click (im_scale : ℚ) (s : EditorState) (x y : ℤ) : EditorState :=
  place_nail im_scale s x y s.placements.isEmpty

/-- The operation `GUI.erase_nail` with the default `safe_zone = 6`: no-op on an empty
store or when the closest nail is farther than 6px (squared: 36); otherwise
pops the closest placement and, if it was the priority one and placements
remain, sets the first remaining placement's priority flag.  The Boolean is
the source's return value. -/
def erase_nail (im_scale : ℚ) (s : EditorState) (x y : ℤ) : EditorState × Bool :=
  let c := get_closest_nail im_scale s.placements x y
  if c.1 = -1 then (s, false)
  else if c.2 > 36 then (s, false)
  else
    match s.placements.get? c.1.toNat with
    | none => (s, false)
    | some sel =>
      let rest := s.placements.eraseIdx c.1.toNat
      let ps := if sel.priority && !rest.isEmpty then set_priority rest 0 true else rest
      ({ s with placements := ps }, true)

/-- The operation `GUI.prioritize_nail` with the default `safe_zone = 6`: no-op on an empty
store or outside the safe zone; otherwise clears the flag at the *stored*
index `priority_nail`, sets the flag on the closest placement, and records
its index.  When `priority_nail` is out of range the indexing raises
`IndexError` before any mutation, leaving the state unchanged. -/
def prioritize_nail (im_scale : ℚ) (s : EditorState) (x y : ℤ) : EditorState :=
  let c := get_closest_nail im_scale s.placements x y
  if c.1 = -1 then s
  else if c.2 > 36 then s
  else if s.priority_nail < s.placements.length then
    { placements := set_priority (set_priority s.placements s.priority_nail false)
        c.1.toNat true,
      priority_nail := c.1.toNat }
  else s

/-- An editor operation as issued by a workspace click with the
corresponding tool selected. -/
inductive Op where
  | place (x y : ℤ)
  | erase (x y : ℤ)
  | prioritize (x y : ℤ)

/-- One click with the given tool. -/
def Op.step (im_scale : ℚ) (s : EditorState) : Op → EditorState
  | .place x y => place_click im_scale s x y
  | .erase x y => (erase_nail im_scale s x y).1
  | .prioritize x y => prioritize_nail im_scale s x y

/-- A sequence of clicks starting from the empty initial state. -/
def run_ops (im_scale : ℚ) (ops : List Op) : EditorState :=
  ops.foldl (Op.step im_scale) EditorState.initial

/-- Number of placements whose priority flag is set. -/
def priority_count (ps : List Placement) : ℕ :=
  ps.countP fun p => p.priority

/-! ## Import / export callbacks (`gui.py`) -/

/-- The GUI state touched by the persistence callbacks. -/
structure GuiFileState where
  placements : List Placement
  im_path : String
  im_scale : ℚ
  deriving DecidableEq

/-- The outcome of the file dialog and image open inside
`import_positions_callback`: either no file was selected / found, or an
image was opened whose width and parsed `pins` metadata are given.  (A
missing `pins` key or malformed JSON text would raise `KeyError` /
`JSONDecodeError` instead; claim C3 is about the parsed value handed to
`placements_from_json`.) -/
inductive ImportInput where
  | missing
  | file (width : ℚ) (pins : JsonVal)

/-- How `import_positions_callback` terminates. -/
inductive ImportOutcome where
  | fileNotFound
  | loadError (msg : String)
  | success
  deriving DecidableEq

/-- The callback `GUI.import_positions_callback`: on a missing file, reports and returns;
otherwise it first assigns `im_path` and `im_scale`, then validates the
`pins` array.  A `PlacementLoadError` raised by `placements_from_json` is
not caught, so it aborts the callback after those assignments; on success
the placement list is replaced wholesale (`clear` + `extend`).
`priority_nail` is never touched. -/
def import_positions_callback (canvas_width : ℚ) (s : GuiFileState)
    (path : String) (input : ImportInput) : ImportOutcome × GuiFileState :=
  match input with
  | .missing => (.fileNotFound, s)
  | .file width pins =>
    let s1 := { s with im_path := path, im_scale := max 1 (width / canvas_width) }
    match placements_from_json pins with
    | .error m => (.loadError m, s1)
    | .ok ps => (.success, { s1 with placements := ps })

/-- How `export_positions_callback` terminates: either the "Not Enough
Points" dialog with no write, or a PNG written at `path` with the array
`pins` embedded as the `pins` metadata field. -/
inductive ExportOutcome where
  | notEnoughPoints
  | saved (path : String) (pins : JsonVal)

/-- The export path: the current image path with one `.stringartpng`
suffix. -/
def export_path (p : String) : String :=
  (if p.endsWith ".stringartpng" then p.dropRight ".stringartpng".length else p)
    ++ ".stringartpng"

/-- The callback `GUI.export_positions_callback`: with fewer than 3 placements it shows
the "Not Enough Points" dialog and returns before anything is serialized or
written; otherwise it writes the image with
`placements_to_json(placements, 1 / im_scale)` embedded.  The GUI state is
not mutated in either case. -/
def export_positions_callback (s : GuiFileState) : ExportOutcome × GuiFileState :=
  if s.placements.length < 3 then (.notEnoughPoints, s)
  else (.saved (export_path s.im_path)
          (placements_to_json s.placements (1 / s.im_scale)), s)

/-! ## Path Orderer (`smart_crop.py`) -/

namespace SmartCropper

/-- The state a `SmartCropper` run reads and writes: the shared placement
list, the shared `gui.priority_nail` index (which the orderer advances), and
the accumulated `order` output. -/
structure CropState where
  placements : List Placement
  priority_nail : ℕ
  order : List (ℤ × ℤ)
  deriving DecidableEq, Repr

/-- The assignment `placements[i].cropper_scanned = b`; out-of-range indices leave the list
unchanged. -/
def set_scanned : List Placement → ℕ → Bool → List Placement
  | [], _, _ => []
  | p :: ps, 0, b => { p with cropper_scanned := b } :: ps
  | p :: ps, n + 1, b => p :: set_scanned ps n b

/-- The helper `distance_between_two_points`, squared (the source takes the square
root; all uses are comparisons, which the square preserves). -/
def distance_between_two_points (x1 y1 x2 y2 : ℤ) : ℤ :=
  (x2 - x1) ^ 2 + (y2 - y1) ^ 2

/-- The generator `SmartCropper.calculate_distances`: for each not-yet-scanned placement,
in list order, the (squared) distance from `parent` together with the
placement and its position (standing for Python's identity-based
`list.index` lookup performed on the selected element). -/
def calculate_distances (parent : Placement) (placements : List Placement) :
    List (ℤ × ℕ × Placement) :=
  (placements.enum.filter fun ip => !ip.2.cropper_scanned).map fun ip =>
    (distance_between_two_points parent.x parent.y ip.2.x ip.2.y, ip.1, ip.2)

/-- The step `SmartCropper.get_closest_placement_to`: marks the placement at
`priority_nail` scanned, and among the remaining unscanned placements
selects the one closest to `parent` (`min` takes the first minimal element),
advances `priority_nail` to its index and appends its coordinates to
`order`; if no unscanned placement remains it returns after the marking. -/
def get_closest_placement_to (c : CropState) (parent : Placement) : CropState :=
  let ps := set_scanned c.placements c.priority_nail true
  match argminFirst (fun t => t.1) (calculate_distances parent ps) with
  | none => { c with placements := ps }
  | some (_, _, i, p) =>
      { placements := ps, priority_nail := i, order := c.order ++ [(p.x, p.y)] }

/-- The loop body of `SmartCropper.get_order`, iterated once per placement:
fetch the seed `placements[priority_nail]` and call
`get_closest_placement_to` on it.  An out-of-range `priority_nail` raises
`IndexError`, aborting the remaining iterations. -/
def get_order_steps : ℕ → CropState → CropState
  | 0, c => c
  | n + 1, c =>
    match c.placements.get? c.priority_nail with
    | none => c
    | some seed => get_order_steps n (get_closest_placement_to c seed)

/-- The loop `SmartCropper.get_order`: `for _ in self.placements: ...` — the body
runs once per placement (the list's length never changes during the run). -/
def get_order (c : CropState) : CropState :=
  get_order_steps c.placements.length c

/-- The driver `SmartCropper.run`: resets every `cropper_scanned` flag, computes the
order, then calls `crop()` unconditionally — the Boolean records that the
crop (polygon mask from `order`) is attempted, with no guard on the number
of points collected. -/
def run (c : CropState) : CropState × Bool :=
  let c0 := { c with placements := c.placements.map fun p => { p with cropper_scanned := false } }
  (get_order c0, true)

end SmartCropper

/-! ## Scale-1 evaluation lemmas

Rational-number normalization does not reduce inside the kernel, so concrete
evaluations are performed after rewriting the `im_scale = 1` case into pure
integer arithmetic. -/

theorem Placement.to_scaled_one (p : Placement) : p.to_scaled 1 = (p.x, p.y) := by
  simp [Placement.to_scaled, pyround_intCast]

theorem distance_to_nail_one (x y : ℤ) (p : Placement) :
    distance_to_nail 1 x y p = (p.x - x) ^ 2 + (p.y - y) ^ 2 := by
  simp [distance_to_nail, Placement.to_scaled_one]

theorem distance_to_nail_one_fun (x y : ℤ) :
    distance_to_nail 1 x y = fun p => (p.x - x) ^ 2 + (p.y - y) ^ 2 :=
  funext fun p => distance_to_nail_one x y p

/-- The function `get_closest_nail` at `im_scale = 1`, with the scaling already reduced
away: used only to evaluate the embedded functions on concrete inputs. -/
def get_closest_nail_int (ps : List Placement) (x y : ℤ) : ℤ × ℤ :=
  match argminFirst (fun p => (p.x - x) ^ 2 + (p.y - y) ^ 2) ps with
  | some (i, p) => ((i : ℤ), (p.x - x) ^ 2 + (p.y - y) ^ 2)
  | none => (-1, -1)

theorem get_closest_nail_one (ps : List Placement) (x y : ℤ) :
    get_closest_nail 1 ps x y = get_closest_nail_int ps x y := by
  simp only [get_closest_nail, get_closest_nail_int, distance_to_nail_one_fun,
    distance_to_nail_one]

theorem place_nail_one (s : EditorState) (x y : ℤ) (pr : Bool) :
    place_nail 1 s x y pr =
      { s with placements := s.placements ++ [⟨x, y, pr, false⟩] } := by
  simp [place_nail, pyround_intCast]

/-! ## Counting lemmas for the priority flag -/


theorem countP_eraseIdx {α : Type} (pr : α → Bool) :
    ∀ (l : List α) (i : ℕ) (a : α), l.get? i = some a →
      (l.eraseIdx i).countP pr = l.countP pr - (if pr a then 1 else 0) := by
  intro l
  induction l with
  | nil => intro i a h; simp at h
  | cons x xs ih =>
    intro i a h
    cases i with
    | zero =>
      simp only [List.get?] at h
      cases h
      simp only [List.eraseIdx, List.countP_cons]
      omega
    | succ k =>
      simp only [List.get?] at h
      have hmem : a ∈ xs := List.get?_mem h
      have hrec := ih k a h
      have hcb : (if pr a then 1 else 0) ≤ xs.countP pr := by
        by_cases ha : pr a = true
        · rw [if_pos ha]
          exact List.countP_pos_iff.mpr ⟨a, hmem, ha⟩
        · rw [if_neg ha]
          exact Nat.zero_le _
      simp only [List.eraseIdx, List.countP_cons, hrec]
      omega

/-- Inversion for a successful `get_closest_nail` lookup: a nonnegative
returned index comes from the first-minimum selection, and the returned
distance is the distance to the placement found there. -/
theorem get_closest_nail_inv {im_scale : ℚ} {ps : List Placement} {x y : ℤ}
    {i : ℕ} {d : ℤ}
    (h : get_closest_nail im_scale ps x y = ((i : ℤ), d)) :
    ∃ p, argminFirst (distance_to_nail im_scale x y) ps = some (i, p) ∧
      d = distance_to_nail im_scale x y p := by
  unfold get_closest_nail at h
  rcases hm : argminFirst (distance_to_nail im_scale x y) ps with _ | ⟨j, p⟩ <;>
    rw [hm] at h
  · rw [Prod.mk.injEq] at h
    have hne : ((i : ℤ)) ≠ -1 := by omega
    exact absurd h.1.symm hne
  · rw [Prod.mk.injEq] at h
    have hj : j = i := by omega
    subst hj
    exact ⟨p, rfl, h.2.symm⟩

/-- Claim C5 (general form): erasing the unique priority placement, with the
store non-empty afterward, makes the new first element priority and leaves
exactly one priority placement. -/
theorem erase_nail_reassigns_priority (im_scale : ℚ) (s : EditorState)
    (x y : ℤ) (i : ℕ) (d : ℤ) (p : Placement)
    (hcount : priority_count s.placements = 1)
    (hclose : get_closest_nail im_scale s.placements x y = ((i : ℤ), d))
    (hsafe : ¬ d > 36)
    (hget : s.placements.get? i = some p)
    (hpri : p.priority = true)
    (hne : s.placements.eraseIdx i ≠ []) :
    ∃ q rest,
      (erase_nail im_scale s x y).1.placements = q :: rest ∧
      q.priority = true ∧
      priority_count (erase_nail im_scale s x y).1.placements = 1 := by
  have hne1 : ((i : ℤ)) ≠ -1 := by omega
  have htoNat : ((i : ℤ)).toNat = i := Int.toNat_natCast i
  -- the store after `pop(closest)`
  rcases hrest : s.placements.eraseIdx i with _ | ⟨r, t⟩
  · exact absurd hrest hne
  have hrest_count : ((r :: t).countP fun q => q.priority) = 0 := by
    rw [← hrest, countP_eraseIdx (fun q => q.priority) s.placements i p hget, hpri]
    unfold priority_count at hcount
    simp only [if_true]
    omega
  have hall := List.countP_eq_zero.mp hrest_count
  have ht : (t.countP fun q => q.priority) = 0 :=
    List.countP_eq_zero.mpr fun a ha => hall a (List.mem_cons_of_mem r ha)
  have hget' : s.placements[i]? = some p := by
    simpa [← List.get?_eq_getElem?] using hget
  have hstep : (erase_nail im_scale s x y).1.placements
      = { r with priority := true } :: t := by
    simp [erase_nail, hclose, hne1, hsafe, htoNat, hget', hrest, hpri, set_priority]
  refine ⟨{ r with priority := true }, t, hstep, rfl, ?_⟩
  rw [hstep]
  simp [priority_count, List.countP_cons, ht]

/-! ## Minimality of `get_closest_nail` -/

theorem distance_to_nail_nonneg (im_scale : ℚ) (x y : ℤ) (p : Placement) :
    0 ≤ distance_to_nail im_scale x y p := by
  unfold distance_to_nail
  positivity

/-- Claim C6: on a non-empty store, `get_closest_nail` returns the index of
a placement at minimal canvas-space Euclidean distance from the query, and
on exact distance ties the lowest such index. -/
theorem get_closest_nail_stable_min (im_scale : ℚ) (ps : List Placement)
    (x y : ℤ) (hne : ps ≠ []) :
    ∃ (i : ℕ) (p : Placement),
      ps.get? i = some p ∧
      get_closest_nail im_scale ps x y = ((i : ℤ), distance_to_nail im_scale x y p) ∧
      ∀ (j : ℕ) (q : Placement), ps.get? j = some q →
        Real.sqrt ((distance_to_nail im_scale x y p : ℤ) : ℝ) ≤
          Real.sqrt ((distance_to_nail im_scale x y q : ℤ) : ℝ) ∧
        (Real.sqrt ((distance_to_nail im_scale x y q : ℤ) : ℝ) =
            Real.sqrt ((distance_to_nail im_scale x y p : ℤ) : ℝ) → i ≤ j) := by
  rcases hm : argminFirst (distance_to_nail im_scale x y) ps with _ | ⟨i, p⟩
  · exact absurd (argminFirst_eq_none _ hm) hne
  have hspec := argminFirst_spec (distance_to_nail im_scale x y) ps i p hm
  refine ⟨i, p, hspec.1, ?_, ?_⟩
  · unfold get_closest_nail
    rw [hm]
  · intro j q hj
    have h := hspec.2 j q hj
    constructor
    · exact Real.sqrt_le_sqrt (by exact_mod_cast h.1)
    · intro heq
      apply h.2
      have hqnn : (0 : ℝ) ≤ ((distance_to_nail im_scale x y q : ℤ) : ℝ) := by
        exact_mod_cast distance_to_nail_nonneg im_scale x y q
      have hpnn : (0 : ℝ) ≤ ((distance_to_nail im_scale x y p : ℤ) : ℝ) := by
        exact_mod_cast distance_to_nail_nonneg im_scale x y p
      have hcast : ((distance_to_nail im_scale x y q : ℤ) : ℝ)
          = ((distance_to_nail im_scale x y p : ℤ) : ℝ) := by
        rw [← Real.sq_sqrt hqnn, ← Real.sq_sqrt hpnn, heq]
      exact_mod_cast hcast

/-- Claim C7: on an empty store `get_closest_nail` returns the sentinel
`(-1, -1.0)` for every query point and every scale. -/
theorem get_closest_nail_empty_sentinel (im_scale : ℚ) (x y : ℤ) :
    get_closest_nail im_scale [] x y = (-1, -1) := rfl

/-- Claim C10: `erase_nail` never touches the stored priority index
`priority_nail` — on success and on every failure path alike, only the
`placements` field of the editor state can change. -/
theorem erase_nail_preserves_priority_nail (im_scale : ℚ) (s : EditorState)
    (x y : ℤ) :
    (erase_nail im_scale s x y).1.priority_nail = s.priority_nail := by
  simp only [erase_nail]
  split
  · rfl
  · split
    · rfl
    · split <;> rfl

/-- Claim C8: exporting with fewer than 3 placements reports the
"Not Enough Points" condition, writes nothing, and leaves the state
unchanged. -/
theorem export_requires_three_points (s : GuiFileState)
    (h : s.placements.length < 3) :
    export_positions_callback s = (.notEnoughPoints, s) := by
  simp [export_positions_callback, h]

theorem export_requires_three_points_witness :
    ((⟨[⟨1, 1, true, false⟩, ⟨2, 2, false, false⟩], "im.png", 1⟩ :
        GuiFileState)).placements.length < 3 ∧
    export_positions_callback ⟨[⟨1, 1, true, false⟩, ⟨2, 2, false, false⟩], "im.png", 1⟩
      = (.notEnoughPoints, ⟨[⟨1, 1, true, false⟩, ⟨2, 2, false, false⟩], "im.png", 1⟩) :=
  ⟨by decide, export_requires_three_points
    ⟨[⟨1, 1, true, false⟩, ⟨2, 2, false, false⟩], "im.png", 1⟩ (by decide)⟩

/-! ## Validation failure of the codec (claim C3) -/

theorem parse_placement_ok_of_triple {j : JsonVal} (h : is_int_triple j = true) :
    ∃ p, parse_placement j = .ok p := by
  cases j with
  | jnull => simp [is_int_triple] at h
  | jbool b => simp [is_int_triple] at h
  | jint n => simp [is_int_triple] at h
  | jnum q => simp [is_int_triple] at h
  | jstr s => simp [is_int_triple] at h
  | jlist l =>
    rcases l with _ | ⟨a, l⟩
    · simp [is_int_triple] at h
    rcases l with _ | ⟨b, l⟩
    · simp [is_int_triple] at h
    rcases l with _ | ⟨c, l⟩
    · simp [is_int_triple] at h
    rcases l with _ | ⟨e, l⟩
    · refine ⟨⟨a.to_int, b.to_int, c.truthy, false⟩, ?_⟩
      simp only [is_int_triple] at h
      simp [parse_placement, h]
    · simp [is_int_triple] at h

theorem parse_placement_error_of_not_triple {j : JsonVal}
    (h : is_int_triple j = false) :
    ∃ m, parse_placement j = .error m := by
  cases j with
  | jnull => exact ⟨_, rfl⟩
  | jbool b => exact ⟨_, rfl⟩
  | jint n => exact ⟨_, rfl⟩
  | jnum q => exact ⟨_, rfl⟩
  | jstr s => exact ⟨_, rfl⟩
  | jlist l =>
    rcases l with _ | ⟨a, l⟩
    · exact ⟨_, rfl⟩
    rcases l with _ | ⟨b, l⟩
    · exact ⟨_, rfl⟩
    rcases l with _ | ⟨c, l⟩
    · exact ⟨_, rfl⟩
    rcases l with _ | ⟨e, l⟩
    · simp only [is_int_triple] at h
      refine ⟨"Error loading placements, data[i][j] is not an integer!", ?_⟩
      simp [parse_placement, h]
    · exact ⟨_, rfl⟩

theorem parse_placements_list_error_of_bad :
    ∀ {l : List JsonVal}, l.any (fun e => !is_int_triple e) = true →
      ∃ m, parse_placements_list l = .error m := by
  intro l
  induction l with
  | nil => intro h; simp at h
  | cons j js ih =>
    intro h
    by_cases hj : is_int_triple j = true
    · have hjs : js.any (fun e => !is_int_triple e) = true := by
        simpa [hj] using h
      obtain ⟨p, hp⟩ := parse_placement_ok_of_triple hj
      obtain ⟨m, hm⟩ := ih hjs
      exact ⟨m, by simp [parse_placements_list, hp, hm]⟩
    · obtain ⟨m, hm⟩ :=
        parse_placement_error_of_not_triple (Bool.not_eq_true _ ▸ hj)
      exact ⟨m, by simp [parse_placements_list, hm]⟩

theorem parse_placements_list_ok_of_all :
    ∀ {l : List JsonVal}, l.all is_int_triple = true →
      ∃ ps, parse_placements_list l = .ok ps ∧ ps.length = l.length := by
  intro l
  induction l with
  | nil => exact fun _ => ⟨[], rfl, rfl⟩
  | cons j js ih =>
    intro h
    rw [List.all_cons, Bool.and_eq_true] at h
    obtain ⟨p, hp⟩ := parse_placement_ok_of_triple h.1
    obtain ⟨ps, hps, hlen⟩ := ih h.2
    exact ⟨p :: ps, by simp [parse_placements_list, hp, hps], by simp [hlen]⟩

/-- Any value rejected by the shape/type/size validation of the codec makes
`placements_from_json` fail with a `PlacementLoadError`. -/
theorem placements_from_json_error_of_invalid {j : JsonVal}
    (h : invalid_import j = true) :
    ∃ m, placements_from_json j = .error m := by
  cases j with
  | jnull => exact ⟨_, rfl⟩
  | jbool b => exact ⟨_, rfl⟩
  | jint n => exact ⟨_, rfl⟩
  | jnum q => exact ⟨_, rfl⟩
  | jstr s => exact ⟨_, rfl⟩
  | jlist l =>
    simp only [invalid_import, Bool.or_eq_true, decide_eq_true_eq] at h
    by_cases hbad : l.any (fun e => !is_int_triple e) = true
    · obtain ⟨m, hm⟩ := parse_placements_list_error_of_bad hbad
      exact ⟨m, by simp [placements_from_json, hm]⟩
    · have hall : l.all is_int_triple = true := by
        rw [List.all_eq_true]
        intro e he
        rcases hh : is_int_triple e with _ | _
        · exact absurd (List.any_eq_true.mpr ⟨e, he, by simp [hh]⟩) hbad
        · rfl
      have hlt : l.length < 3 := by
        rcases h with h | h
        · exact absurd h hbad
        · exact h
      obtain ⟨ps, hps, hlen⟩ := parse_placements_list_ok_of_all hall
      refine ⟨"Error loading placements, not enough points!", ?_⟩
      simp [placements_from_json, hps, hlen, hlt]

/-- Claim C3, amended: an import whose `pins` value fails the shape/type/size
validation terminates with a load error (distinct from the file-not-found
outcome) and leaves the placement store unchanged; `im_path` and `im_scale`,
however, have already been updated by the time the validation runs. -/
theorem import_invalid_preserves_store (canvas_width : ℚ) (s : GuiFileState)
    (path : String) (width : ℚ) (pins : JsonVal)
    (h : invalid_import pins = true) :
    ∃ m, import_positions_callback canvas_width s path (.file width pins)
        = (.loadError m,
           { s with im_path := path, im_scale := max 1 (width / canvas_width) }) := by
  obtain ⟨m, hm⟩ := placements_from_json_error_of_invalid h
  exact ⟨m, by simp [import_positions_callback, hm]⟩

theorem import_invalid_preserves_store_witness :
    invalid_import (.jlist [.jlist [.jint 1, .jint 1, .jint 1],
                            .jlist [.jint 2, .jint 2, .jint 0]]) = true ∧
    (∃ m, import_positions_callback 100 ⟨[], "old.png", 1⟩ "new.stringartpng"
        (.file 50 (.jlist [.jlist [.jint 1, .jint 1, .jint 1],
                           .jlist [.jint 2, .jint 2, .jint 0]]))
      = (.loadError m,
         { (⟨[], "old.png", 1⟩ : GuiFileState) with
             im_path := "new.stringartpng",
             im_scale := max 1 (50 / 100) })) :=
  ⟨by decide, import_invalid_preserves_store 100 ⟨[], "old.png", 1⟩
    "new.stringartpng" 50 _ (by decide)⟩

/-- Claim C3 as stated is false on the code: importing the two-entry array
`[[1,1,1],[2,2,0]]` does fail with the not-enough-points load error and does
leave the store exactly as it was, but it does *not* leave all existing
state unchanged — `im_path` has already been repointed at the opened file
when the error is raised (and `im_scale` recomputed with it). -/
theorem import_load_error_still_mutates :
    (import_positions_callback 100 ⟨[], "old.png", 1⟩ "new.stringartpng"
        (.file 50 (.jlist [.jlist [.jint 1, .jint 1, .jint 1],
                           .jlist [.jint 2, .jint 2, .jint 0]]))).1
      = .loadError "Error loading placements, not enough points!" ∧
    (import_positions_callback 100 ⟨[], "old.png", 1⟩ "new.stringartpng"
        (.file 50 (.jlist [.jlist [.jint 1, .jint 1, .jint 1],
                           .jlist [.jint 2, .jint 2, .jint 0]]))).2.placements
      = [] ∧
    (import_positions_callback 100 ⟨[], "old.png", 1⟩ "new.stringartpng"
        (.file 50 (.jlist [.jlist [.jint 1, .jint 1, .jint 1],
                           .jlist [.jint 2, .jint 2, .jint 0]]))).2.im_path
      ≠ "old.png" := by
  refine ⟨?_, ?_, ?_⟩ <;> decide

/-! ## Export/import round trip (claim C4) -/

theorem placements_to_json_one (ps : List Placement) :
    placements_to_json ps 1
      = .jlist (ps.map fun p => .jlist [.jint p.x, .jint p.y, .jbool p.priority]) := by
  simp [placements_to_json, pyround_intCast]

theorem parse_placements_list_roundtrip (ps : List Placement) :
    parse_placements_list
        (ps.map fun p => .jlist [.jint p.x, .jint p.y, .jbool p.priority])
      = .ok (ps.map fun p => ⟨p.x, p.y, p.priority, false⟩) := by
  induction ps with
  | nil => rfl
  | cons p ps ih =>
    simp [parse_placements_list, parse_placement, JsonVal.is_int, JsonVal.to_int,
      JsonVal.truthy, ih]

/-- Claim C4: for a store of size at least 3, importing the export (at
descale factor 1) reproduces the same ordered `(x, y, priority)` triples,
the transient `cropper_scanned` flag being ignored on both sides. -/
theorem export_import_roundtrip (ps : List Placement) (h3 : 3 ≤ ps.length) :
    (placements_from_json (placements_to_json ps 1)).map (List.map Placement.triple)
      = Except.ok (ps.map Placement.triple) := by
  rw [placements_to_json_one]
  simp only [placements_from_json, parse_placements_list_roundtrip]
  rw [if_neg (by simp; omega)]
  simp [Except.map, List.map_map, Placement.triple, Function.comp]

theorem export_import_roundtrip_witness :
    3 ≤ ([⟨0, 0, true, false⟩, ⟨10, 0, false, false⟩, ⟨0, 10, false, false⟩] :
        List Placement).length ∧
    (placements_from_json (placements_to_json
        [⟨0, 0, true, false⟩, ⟨10, 0, false, false⟩, ⟨0, 10, false, false⟩] 1)).map
        (List.map Placement.triple)
      = Except.ok (([⟨0, 0, true, false⟩, ⟨10, 0, false, false⟩,
          ⟨0, 10, false, false⟩] : List Placement).map Placement.triple) :=
  ⟨by decide, export_import_roundtrip _ (by decide)⟩

/-! ## Claim theorems on concrete runs -/

/-- Claim C1 is violated by the code: after the click sequence place(0,0),
place(100,0), place(0,100), prioritize(100,0), erase(0,0), prioritize(0,100)
at scale 1, starting from the empty store, the Placement Store holds two
placements with `priority = true`.  The cause: `erase_nail` removes an
element without updating `priority_nail`, so the final `prioritize_nail`
clears the flag of the wrong element while the real holder keeps it. -/
theorem editor_reaches_two_priorities :
    (run_ops 1 [.place 0 0, .place 100 0, .place 0 100,
        .prioritize 100 0, .erase 0 0, .prioritize 0 100]).placements
      = [⟨100, 0, true, false⟩, ⟨0, 100, true, false⟩] ∧
    priority_count (run_ops 1 [.place 0 0, .place 100 0, .place 0 100,
        .prioritize 100 0, .erase 0 0, .prioritize 0 100]).placements = 2 := by
  constructor <;>
  · simp only [run_ops, List.foldl, Op.step, place_click, place_nail_one,
      erase_nail, prioritize_nail, get_closest_nail_one, EditorState.initial]
    decide

/-- Claim C2 is violated by the code: on the store A(0,0,priority), B(10,0),
C(0,10) with priority index 0, the Path Orderer produces the path
[(10,0), (0,10)] — length 2 rather than the store size 3, and its first
element is B, not the priority coordinate (0,0).  `get_closest_placement_to`
marks the seed scanned but never appends the seed itself to the path. -/
theorem path_orderer_drops_seed :
    (SmartCropper.run ⟨[⟨0, 0, true, false⟩, ⟨10, 0, false, false⟩,
        ⟨0, 10, false, false⟩], 0, []⟩).1.order = [(10, 0), (0, 10)] := by
  decide

/-- Claim C9, checked on the code: with an empty store the ordering pass is
indeed a no-op producing an empty path, but `run` then invokes the crop
step unconditionally (the `true` component) — there is no guard that skips
the crop and reports "nothing to crop" on a degenerate polygon. -/
theorem run_attempts_crop_on_empty_store :
    SmartCropper.run ⟨[], 0, []⟩ = (⟨[], 0, []⟩, true) := by
  decide

theorem erase_nail_reassigns_priority_witness :
    priority_count ([⟨10, 10, true, false⟩, ⟨10, 20, false, false⟩,
        ⟨20, 10, false, false⟩] : List Placement) = 1 ∧
    (erase_nail 1 ⟨[⟨10, 10, true, false⟩, ⟨10, 20, false, false⟩,
        ⟨20, 10, false, false⟩], 0⟩ 10 10).1.placements
      = [⟨10, 20, true, false⟩, ⟨20, 10, false, false⟩] ∧
    (∃ q rest,
      (erase_nail 1 ⟨[⟨10, 10, true, false⟩, ⟨10, 20, false, false⟩,
          ⟨20, 10, false, false⟩], 0⟩ 10 10).1.placements = q :: rest ∧
      q.priority = true ∧
      priority_count (erase_nail 1 ⟨[⟨10, 10, true, false⟩,
          ⟨10, 20, false, false⟩, ⟨20, 10, false, false⟩], 0⟩ 10 10).1.placements
        = 1) := by
  refine ⟨by decide, ?_, ?_⟩
  · simp only [erase_nail, get_closest_nail_one]
    decide
  · exact erase_nail_reassigns_priority 1
      ⟨[⟨10, 10, true, false⟩, ⟨10, 20, false, false⟩, ⟨20, 10, false, false⟩], 0⟩
      10 10 0 0 ⟨10, 10, true, false⟩ (by decide)
      (by rw [get_closest_nail_one]; decide) (by decide) rfl rfl (by decide)

theorem get_closest_nail_stable_min_witness :
    (([⟨0, 0, true, false⟩] : List Placement) ≠ []) ∧
    (∃ (i : ℕ) (p : Placement),
      ([⟨0, 0, true, false⟩] : List Placement).get? i = some p ∧
      get_closest_nail 1 [⟨0, 0, true, false⟩] 3 4
        = ((i : ℤ), distance_to_nail 1 3 4 p) ∧
      ∀ (j : ℕ) (q : Placement),
        ([⟨0, 0, true, false⟩] : List Placement).get? j = some q →
          Real.sqrt ((distance_to_nail 1 3 4 p : ℤ) : ℝ) ≤
            Real.sqrt ((distance_to_nail 1 3 4 q : ℤ) : ℝ) ∧
          (Real.sqrt ((distance_to_nail 1 3 4 q : ℤ) : ℝ) =
              Real.sqrt ((distance_to_nail 1 3 4 p : ℤ) : ℝ) → i ≤ j)) :=
  ⟨by decide, get_closest_nail_stable_min 1 [⟨0, 0, true, false⟩] 3 4 (by decide)⟩
